import Mathlib

/-!
Verification of the chess-analysis pipeline (`chess_analyzer.py`,
`ml_inference.py`) against its natural-language specification.

The Python sources are shallowly embedded: machine floats are modelled by
`ℚ` (every quantity the pipeline manipulates is produced by explicit
rounding steps in the source, so exact rationals are faithful), Python
`None` by `Option`, Python dicts by association lists with `List.lookup`,
and the external Stockfish process by an oracle function passed as a
parameter.  The evaluation cache of `ChessAnalyzer` is threaded as explicit
state, extended with a ghost log of the position fingerprints actually sent
to the engine so that "the engine is invoked at most once per position"
becomes a statement about that log.
-/

/-! ## Python numeric primitives -/

/-- Python `round(x)` / `float(round(x))`: round half to even (banker's
rounding), returning an integer. -/
def pyRound (q : ℚ) : ℤ :=
  let f := ⌊q⌋
  let r := q - f
  if r < 1/2 then f
  else if 1/2 < r then f + 1
  else if f % 2 = 0 then f else f + 1

/-- Python `round(x, 2)` and `np.round(x, 2)`: round half to even at two
decimal places. -/
def pyRound2 (q : ℚ) : ℚ := (pyRound (q * 100) : ℚ) / 100

/-- Python `int(x)` on a float: truncation toward zero. -/
def pyTrunc (q : ℚ) : ℤ := if 0 ≤ q then ⌊q⌋ else ⌈q⌉

/-- The `ultra_round` helper of `extract_features`: decimal rounding to six
places with `ROUND_HALF_UP` (ties away from zero). -/
def ultraRound (q : ℚ) : ℚ :=
  if 0 ≤ q then (⌊q * 1000000 + 1/2⌋ : ℚ) / 1000000
  else -((⌊-q * 1000000 + 1/2⌋ : ℚ) / 1000000)

/-- `np.mean` of a list of rationals (callers guard against emptiness). -/
def npMean (l : List ℚ) : ℚ := l.sum / l.length

/-- Python two-argument `max` on numbers (kernel-computable). -/
def pyMax (a b : ℚ) : ℚ := if b ≤ a then a else b

/-- Python two-argument `min` on numbers (kernel-computable). -/
def pyMin (a b : ℚ) : ℚ := if a ≤ b then a else b

/-- Python two-argument `max` on integers (kernel-computable). -/
def pyMaxZ (a b : ℤ) : ℤ := if b ≤ a then a else b

/-- Python two-argument `min` on integers (kernel-computable). -/
def pyMinZ (a b : ℤ) : ℤ := if a ≤ b then a else b

/-! ## chess_analyzer.py: data model -/

/-- The `MoveAnalysis` dataclass of `chess_analyzer.py`. -/
structure MoveAnalysis where
  move_number : ℕ
  move : String
  eval_before : ℚ
  eval_after : ℚ
  centipawn_loss : ℚ
  best_move : String
  time_spent : Option ℚ
  clock_remaining : Option ℚ
  phase : String
  is_blunder : Bool
  is_mistake : Bool
  is_inaccuracy : Bool
  is_good : Bool
  is_best : Bool
  is_brilliant : Bool
deriving DecidableEq, Inhabited

/-- The `GameAnalysis` dataclass of `chess_analyzer.py`. -/
structure GameAnalysis where
  player_color : String
  result : String
  moves : List MoveAnalysis
  total_moves : ℕ
deriving DecidableEq, Inhabited

/-- A Stockfish score as read from `info["score"].white()`: either a mate
announcement or a centipawn score. -/
inductive EvalInfo where
  | mate (moves : ℤ)
  | cp (score : ℚ)
deriving DecidableEq

/-- The external engine: given a position fingerprint it either returns the
analysis info (score and optional principal-variation move) or raises
(`none`), matching the `try`/`except` around `self.engine.analyse`. -/
abbrev Engine := String → Option (EvalInfo × Option String)

/-- One ply of a parsed game, carrying exactly the data the analysis loop of
`analyze_game` reads from the `python-chess` objects: the mover's side
(`board.turn`), the UCI text of the move, the clock annotation (the merged
result of `node.clock()` / `_parse_clk`), the position fingerprints before
and after the push (`_get_position_hash`), and the post-move material data
consumed by `_get_game_phase`. -/
structure Ply where
  white_to_move : Bool
  uci : String
  clock : Option ℚ
  pos_before : String
  pos_after : String
  num_pieces_after : ℕ
  has_queens_after : Bool
deriving DecidableEq

/-- A successfully parsed PGN game as `analyze_game` consumes it: the
`White`/`Black`/`Result` headers and the mainline plies.  `raise_at = some n`
models an exception interrupting the `for node in game.mainline()` loop after
`n` plies were fully processed (`raise_at = none`: the loop completes). -/
structure GameInput where
  white : String
  black : String
  result : String
  plies : List Ply
  raise_at : Option ℕ
deriving DecidableEq

/-- The mutable state of a `ChessAnalyzer` session: the `eval_cache`
association (fingerprint ↦ cached `(score, best_move)`), plus a ghost log of
the fingerprints sent to `engine.analyse` (in call order). -/
structure AnalyzerState where
  cache : List (String × (ℚ × String))
  calls : List String
deriving DecidableEq

/-! ## chess_analyzer.py: functions -/

/-- `ChessAnalyzer` tier thresholds. -/
def BEST_THRESHOLD : ℤ := 10
def GOOD_THRESHOLD : ℤ := 25
def INACCURACY_THRESHOLD : ℤ := 50
def MISTAKE_THRESHOLD : ℤ := 100
def BLUNDER_THRESHOLD : ℤ := 200
def BRILLIANT_GAIN : ℤ := 50
def MAX_CP_LOSS : ℤ := 500

/-- `ChessAnalyzer._get_game_phase`, applied to the post-move board. -/
def getGamePhase (num_pieces : ℕ) (has_queens : Bool) (move_number : ℕ) : String :=
  if num_pieces ≤ 12 ∨ (has_queens = false ∧ num_pieces ≤ 16) then "endgame"
  else if move_number ≤ 12 then "opening"
  else "middlegame"

/-- `ChessAnalyzer._eval_to_centipawns`: mate scores map to ±10000, the score
is sign-flipped for the black perspective, then rounded. -/
def evalToCentipawns (info : EvalInfo) (perspective_white : Bool) : ℚ :=
  let score : ℚ :=
    match info with
    | .mate m => if 0 < m then 10000 else -10000
    | .cp s => s
  let score := if perspective_white then score else -score
  ((pyRound score : ℤ) : ℚ)

/-- The six quality flags returned (as a dict) by
`ChessAnalyzer._classify_move`. -/
structure MoveQuality where
  is_brilliant : Bool
  is_best : Bool
  is_good : Bool
  is_inaccuracy : Bool
  is_mistake : Bool
  is_blunder : Bool
deriving DecidableEq

/-- `ChessAnalyzer._classify_move`. -/
def classifyMove (cp_loss eval_before eval_after : ℚ) : MoveQuality :=
  let cp : ℤ := pyRound (pyMin cp_loss ((MAX_CP_LOSS : ℤ) : ℚ))
  let eval_gain : ℤ := pyRound (eval_after - eval_before)
  { is_brilliant := decide (BRILLIANT_GAIN ≤ eval_gain)
    is_best := decide (cp ≤ BEST_THRESHOLD)
    is_good := decide (BEST_THRESHOLD < cp ∧ cp ≤ GOOD_THRESHOLD)
    is_inaccuracy := decide (INACCURACY_THRESHOLD ≤ cp ∧ cp < MISTAKE_THRESHOLD)
    is_mistake := decide (MISTAKE_THRESHOLD ≤ cp ∧ cp < BLUNDER_THRESHOLD)
    is_blunder := decide (BLUNDER_THRESHOLD ≤ cp) }

/-- `ChessAnalyzer.analyze_position`: on a cache hit return the stored value
unchanged; on a miss call the engine (logging the call), convert the score
from the white perspective, and cache the result; if the engine raises,
return `(0, "")` without caching. -/
def analyzePosition (engine : Engine) (st : AnalyzerState) (fp : String) :
    (ℚ × String) × AnalyzerState :=
  match st.cache.lookup fp with
  | some v => (v, st)
  | none =>
    match engine fp with
    | some (info, pv) =>
      let eval_cp := evalToCentipawns info true
      let best_move := match pv with | some m => m | none => ""
      ((eval_cp, best_move), ⟨(fp, (eval_cp, best_move)) :: st.cache, st.calls ++ [fp]⟩)
    | none => ((0, ""), ⟨st.cache, st.calls ++ [fp]⟩)

/-- Whether `needle` occurs at the head of `hay`. -/
def startsWithSeq : List Char → List Char → Bool
  | [], _ => true
  | _ :: _, [] => false
  | a :: as, b :: bs => a == b && startsWithSeq as bs

/-- Whether `needle` occurs contiguously anywhere in `hay` (Python `in`). -/
def containsSeq (needle : List Char) : List Char → Bool
  | [] => needle.isEmpty
  | b :: bs => startsWithSeq needle (b :: bs) || containsSeq needle bs

/-- Case-insensitive substring test: Python `a.lower() in b.lower()`
(lower-casing character by character). -/
def lowerContains (hay needle : String) : Bool :=
  containsSeq (needle.toList.map Char.toLower) (hay.toList.map Char.toLower)

/-- The player-colour assignment of `analyze_game`: substring match against
the White header, then the Black header, defaulting to white. -/
def determinePlayerColor (player_name white_player black_player : String) : String :=
  if lowerContains white_player player_name then "white"
  else if lowerContains black_player player_name then "black"
  else "white"

/-- The loop state of the `for node in game.mainline()` loop of
`analyze_game`. -/
structure LoopState where
  prev_clock_white : Option ℚ
  prev_clock_black : Option ℚ
  move_number : ℕ
  moves : List MoveAnalysis
  ast : AnalyzerState

/-- One iteration of the mainline loop of `analyze_game`: clock bookkeeping
for the side on move; for a target-player ply, evaluate before the push,
push, evaluate after, flip signs for black, round, compute the capped
centipawn loss, classify, tag the phase of the post-move board and append a
`MoveAnalysis`; for an opponent ply, just push. -/
def processPly (engine : Engine) (player_color : String) (ls : LoopState) (ply : Ply) :
    LoopState :=
  let is_white_move := ply.white_to_move
  let current_clock := ply.clock
  let prev := if is_white_move then ls.prev_clock_white else ls.prev_clock_black
  let time_spent : Option ℚ :=
    match current_clock, prev with
    | some c, some p => some (pyMax 0 (p - c))
    | _, _ => none
  let prevW := if current_clock.isSome && is_white_move then current_clock
               else ls.prev_clock_white
  let prevB := if current_clock.isSome && !is_white_move then current_clock
               else ls.prev_clock_black
  if (player_color = "white" ∧ is_white_move = true) ∨
     (player_color = "black" ∧ is_white_move = false) then
    let r1 := analyzePosition engine ls.ast ply.pos_before
    let eval_before0 := if player_color = "black" then -r1.1.1 else r1.1.1
    let best_move := r1.1.2
    let move_number := ls.move_number + 1
    let r2 := analyzePosition engine r1.2 ply.pos_after
    let eval_after0 := if player_color = "black" then -r2.1.1 else r2.1.1
    let eval_before : ℚ := (pyRound eval_before0 : ℤ)
    let eval_after : ℚ := (pyRound eval_after0 : ℤ)
    let cp_loss : ℚ :=
      (pyRound (pyMin (pyMax 0 (eval_before - eval_after)) ((MAX_CP_LOSS : ℤ) : ℚ)) : ℤ)
    let q := classifyMove cp_loss eval_before eval_after
    let phase := getGamePhase ply.num_pieces_after ply.has_queens_after move_number
    ⟨prevW, prevB, move_number,
      ls.moves ++ [⟨move_number, ply.uci, eval_before, eval_after, cp_loss, best_move,
        time_spent, current_clock, phase,
        q.is_blunder, q.is_mistake, q.is_inaccuracy, q.is_good, q.is_best, q.is_brilliant⟩],
      r2.2⟩
  else
    ⟨prevW, prevB, ls.move_number, ls.moves, ls.ast⟩

/-- The whole mainline loop of `analyze_game`. -/
def processPlies (engine : Engine) (player_color : String) (plies : List Ply)
    (ls : LoopState) : LoopState :=
  plies.foldl (processPly engine player_color) ls

/-- `ChessAnalyzer.analyze_game` on a successfully parsed game:
run the mainline loop (truncated if an exception interrupts it); in the
exception handler discard the game when fewer than 5 moves were analyzed;
after the loop discard it when no move was analyzed; otherwise build the
`GameAnalysis`. -/
def analyzeGame (engine : Engine) (g : GameInput) (player_name : String)
    (ast : AnalyzerState) : Option GameAnalysis × AnalyzerState :=
  let player_color := determinePlayerColor player_name g.white g.black
  let processed := match g.raise_at with | some n => g.plies.take n | none => g.plies
  let fin := processPlies engine player_color processed ⟨none, none, 0, [], ast⟩
  if g.raise_at.isSome ∧ fin.moves.length < 5 then (none, fin.ast)
  else if fin.moves.length = 0 then (none, fin.ast)
  else (some ⟨player_color, g.result, fin.moves, fin.moves.length⟩, fin.ast)

/-- `ChessAnalyzer.analyze_multiple_games`: analyze the batch sequentially
against the shared cache, keeping the successful analyses. -/
def analyzeMultipleGames (engine : Engine) (player_name : String)
    (games : List GameInput) (ast : AnalyzerState) :
    List GameAnalysis × AnalyzerState :=
  match games with
  | [] => ([], ast)
  | g :: gs =>
    let r := analyzeGame engine g player_name ast
    let rest := analyzeMultipleGames engine player_name gs r.2
    (match r.1 with | some a => a :: rest.1 | none => rest.1, rest.2)

/-! ## chess_analyzer.py: extract_features -/

/-- The all-zero 15-feature dictionary returned by `extract_features` for an
empty input, in the source's insertion order. -/
def zeroFeatures : List (String × ℚ) :=
  [("avg_cp_loss", 0), ("blunder_rate", 0), ("mistake_rate", 0),
   ("inaccuracy_rate", 0), ("brilliant_moves", 0),
   ("best_moves", 0), ("good_moves", 0),
   ("avg_move_time", 0), ("time_pressure_moves", 0),
   ("avg_cp_loss_opening", 0), ("avg_cp_loss_middlegame", 0),
   ("avg_cp_loss_endgame", 0), ("blunder_rate_opening", 0),
   ("blunder_rate_middlegame", 0), ("blunder_rate_endgame", 0)]

/-- `extract_features` of `chess_analyzer.py`.  Each stored value mirrors the
source line for line: means and rates over all moves, the timed-move
statistics with the 60-second clock rule and the `mean/3` + 2-second rush
rule, and the per-phase means and blunder rates, all passed through
`ultra_round`. -/
def extractFeatures (game_analyses : List GameAnalysis) : List (String × ℚ) :=
  if game_analyses.isEmpty then zeroFeatures else
  let all_moves := game_analyses.flatMap GameAnalysis.moves
  let opening_moves := all_moves.filter (fun m => m.phase == "opening")
  let middlegame_moves := all_moves.filter (fun m => m.phase == "middlegame")
  let endgame_moves :=
    all_moves.filter (fun m => !(m.phase == "opening") && !(m.phase == "middlegame"))
  let total_moves := all_moves.length
  if total_moves = 0 then zeroFeatures else
  let avg_cp_loss := ultraRound (npMean (all_moves.map MoveAnalysis.centipawn_loss))
  let blunder_rate :=
    ultraRound ((all_moves.countP (fun m => m.is_blunder) : ℚ) / total_moves)
  let mistake_rate :=
    ultraRound ((all_moves.countP (fun m => m.is_mistake) : ℚ) / total_moves)
  let inaccuracy_rate :=
    ultraRound ((all_moves.countP (fun m => m.is_inaccuracy) : ℚ) / total_moves)
  let brilliant_moves :=
    ultraRound ((all_moves.countP (fun m => m.is_brilliant) : ℚ) / total_moves)
  let best_moves :=
    ultraRound ((all_moves.countP (fun m => m.is_best) : ℚ) / total_moves)
  let good_moves :=
    ultraRound ((all_moves.countP (fun m => m.is_good) : ℚ) / total_moves)
  let moves_with_time := all_moves.filter (fun m => m.time_spent.isSome)
  let timePair : ℚ × ℚ :=
    if moves_with_time.length = 0 then (0, 0)
    else
      let avg_time := npMean (moves_with_time.map (fun m => m.time_spent.getD 0))
      let rush_threshold := avg_time / 3
      let pressure_count := moves_with_time.foldl (fun acc m =>
        if (match m.clock_remaining with
            | some c => decide (c < 60)
            | none => false)
           || (decide (m.time_spent.getD 0 < rush_threshold) &&
               decide (m.time_spent.getD 0 < 2)) then acc + 1 else acc) (0 : ℕ)
      (ultraRound avg_time,
       ultraRound ((pressure_count : ℚ) / moves_with_time.length))
  let avg_cp_loss_opening :=
    ultraRound (if opening_moves.length = 0 then 0
      else npMean (opening_moves.map MoveAnalysis.centipawn_loss))
  let avg_cp_loss_middlegame :=
    ultraRound (if middlegame_moves.length = 0 then 0
      else npMean (middlegame_moves.map MoveAnalysis.centipawn_loss))
  let avg_cp_loss_endgame :=
    ultraRound (if endgame_moves.length = 0 then 0
      else npMean (endgame_moves.map MoveAnalysis.centipawn_loss))
  let blunder_rate_opening :=
    ultraRound (if opening_moves.length = 0 then 0
      else (opening_moves.countP (fun m => m.is_blunder) : ℚ) / opening_moves.length)
  let blunder_rate_middlegame :=
    ultraRound (if middlegame_moves.length = 0 then 0
      else (middlegame_moves.countP (fun m => m.is_blunder) : ℚ) / middlegame_moves.length)
  let blunder_rate_endgame :=
    ultraRound (if endgame_moves.length = 0 then 0
      else (endgame_moves.countP (fun m => m.is_blunder) : ℚ) / endgame_moves.length)
  [("avg_cp_loss", avg_cp_loss), ("blunder_rate", blunder_rate),
   ("mistake_rate", mistake_rate), ("inaccuracy_rate", inaccuracy_rate),
   ("brilliant_moves", brilliant_moves), ("best_moves", best_moves),
   ("good_moves", good_moves),
   ("avg_move_time", timePair.1), ("time_pressure_moves", timePair.2),
   ("avg_cp_loss_opening", avg_cp_loss_opening),
   ("avg_cp_loss_middlegame", avg_cp_loss_middlegame),
   ("avg_cp_loss_endgame", avg_cp_loss_endgame),
   ("blunder_rate_opening", blunder_rate_opening),
   ("blunder_rate_middlegame", blunder_rate_middlegame),
   ("blunder_rate_endgame", blunder_rate_endgame)]

/-! ## ml_inference.py: data model -/

/-- A category result dict `{classification, confidence, numeric_score}` as
produced by `MLInferenceEngine`. -/
structure CatResult where
  classification : String
  confidence : ℚ
  numeric_score : ℤ
deriving DecidableEq

/-- A loaded model artifact, by the capabilities `_get_predictions` and
`_classify_prediction` probe with `isinstance`/`hasattr`: a plain dict, a
classifier with `predict_proba` (and `predict`), a model with `predict` only
(`none` output modelling a non-`int`/`float` prediction), or an object with
neither. -/
inductive MLModel where
  | dictModel
  | probaModel (predict_proba : List ℚ → List ℚ)
  | pointModel (predict : List ℚ → Option ℚ)
  | bareModel

/-- `isinstance(model, dict)`. -/
def MLModel.isDict : MLModel → Bool
  | .dictModel => true
  | _ => false

/-- `hasattr(model, 'predict')`. -/
def MLModel.hasPredict : MLModel → Bool
  | .probaModel _ => true
  | .pointModel _ => true
  | _ => false

/-- The static `FEATURE_MAPPINGS` table of `ml_inference.py`. -/
def FEATURE_MAPPINGS : List (String × List String) :=
  [("opening", ["avg_cp_loss_opening", "blunder_rate_opening"]),
   ("middlegame", ["avg_cp_loss_middlegame", "blunder_rate_middlegame",
                   "mistake_rate", "best_moves", "good_moves"]),
   ("endgame", ["avg_cp_loss_endgame", "blunder_rate_endgame", "inaccuracy_rate"]),
   ("tactical", ["blunder_rate", "brilliant_moves", "best_moves",
                 "mistake_rate", "inaccuracy_rate"]),
   ("positional", ["avg_cp_loss", "blunder_rate", "mistake_rate", "best_moves",
                   "good_moves", "inaccuracy_rate", "brilliant_moves"]),
   ("time_management", ["avg_move_time", "time_pressure_moves", "blunder_rate",
                        "mistake_rate", "avg_cp_loss"])]

/-- Python `dict.get(key, default)` over an association list. -/
def dictGetD (d : List (String × ℚ)) (key : String) (default : ℚ) : ℚ :=
  (d.lookup key).getD default

/-- The feature row `X` built by `_classify_prediction`:
`[features_dict.get(f, 0.0) for f in feature_names]`. -/
def buildX (feature_names : List String) (features_dict : List (String × ℚ)) : List ℚ :=
  feature_names.map (fun f => dictGetD features_dict f 0)

/-- `np.max` over a nonempty list (0 for the empty list, which callers
guard). -/
def npMax : List ℚ → ℚ
  | [] => 0
  | x :: xs => xs.foldl pyMax x

/-- Helper for `npArgmax`: fold tracking the first index of the maximum. -/
def npArgmaxFrom : ℕ → ℚ → ℕ → List ℚ → ℕ
  | _, _, best_idx, [] => best_idx
  | i, best_val, best_idx, x :: xs =>
    if best_val < x then npArgmaxFrom (i + 1) x i xs
    else npArgmaxFrom (i + 1) best_val best_idx xs

/-- `np.argmax`: the first index attaining the maximum (deterministic
tie-break toward the lowest index). -/
def npArgmax : List ℚ → ℕ
  | [] => 0
  | x :: xs => npArgmaxFrom 1 x 0 xs

/-- `MLInferenceEngine._default_classification`. -/
def defaultClassification : CatResult := ⟨"average", 1/2, 50⟩

/-- The `predict_proba` branch of `_classify_prediction`: argmax class with
lowest-index tie-break, confidence the maximal probability, class mapped to
the weak/average/excellent band by `int(...)` truncation, then the final
safety clamps and two-decimal rounding of the confidence.  An empty
probability row makes `np.argmax` raise, which the enclosing `except` turns
into the default classification. -/
def probaResult (proba : List ℚ) : CatResult :=
  match proba with
  | [] => defaultClassification
  | _ =>
    let predicted_class := npArgmax proba
    let confidence := npMax proba
    let pair : String × ℤ :=
      if predicted_class = 0 then ("weak", pyTrunc (confidence * 33))
      else if predicted_class = 1 then ("average", 34 + pyTrunc (confidence * 33))
      else ("excellent", 68 + pyTrunc (confidence * 32))
    let confidence := pyMax 0 (pyMin 1 confidence)
    let numeric_score := pyMaxZ 0 (pyMinZ 100 pair.2)
    ⟨pair.1, pyRound2 confidence, numeric_score⟩

/-- The `predict` (regression) branch of `_classify_prediction`: clamp the
numeric prediction to `[0,1]`, scale to a 0–100 score by truncation, read the
classification off the score, apply the final clamps; a non-numeric
prediction yields the default classification. -/
def pointResult (pred : Option ℚ) : CatResult :=
  match pred with
  | none => defaultClassification
  | some p =>
    let normalized := pyMax 0 (pyMin 1 p)
    let numeric_score := pyTrunc (normalized * 100)
    let confidence := normalized
    let classification :=
      if 68 ≤ numeric_score then "excellent"
      else if 34 ≤ numeric_score then "average"
      else "weak"
    let confidence := pyMax 0 (pyMin 1 confidence)
    let numeric_score := pyMaxZ 0 (pyMinZ 100 numeric_score)
    ⟨classification, pyRound2 confidence, numeric_score⟩

/-- `MLInferenceEngine._classify_prediction`: look up the category's model
(`model_key_map` is the identity on every category) and feature list, build
the feature row, and dispatch on the model's capabilities; every failure
path returns `_default_classification()`. -/
def classifyPrediction (models : List (String × MLModel)) (category : String)
    (features_dict : List (String × ℚ)) : CatResult :=
  let model_key := category
  match models.lookup model_key with
  | none => defaultClassification
  | some model =>
    match FEATURE_MAPPINGS.lookup model_key with
    | none => defaultClassification
    | some feature_names =>
      let X := buildX feature_names features_dict
      match model with
      | .probaModel f => probaResult (f X)
      | .pointModel f => pointResult (f X)
      | _ => defaultClassification

/-- `MLInferenceEngine._score_to_result`. -/
def scoreToResult (score : ℚ) : CatResult :=
  let score := pyMax 0 (pyMin 100 score)
  let classification :=
    if 68 ≤ score then "excellent"
    else if 34 ≤ score then "average"
    else "weak"
  let confidence := score / 100
  ⟨classification, pyRound2 confidence, pyTrunc score⟩

/-- The score computation of `_classify_prediction_rule_based` for the three
phase categories. -/
def phaseScore (avg_loss blunders : ℚ) : ℚ :=
  if avg_loss < 30 ∧ blunders < 1/20 then
    85 + (30 - avg_loss) * (1/2) - blunders * 200
  else if avg_loss < 80 ∧ blunders < 3/20 then
    70 + (80 - avg_loss) * (3/10) - blunders * 100
  else if avg_loss < 150 ∧ blunders < 3/10 then
    50 + (150 - avg_loss) * (1/5) - blunders * 60
  else
    25 - ((avg_loss - 150) * (3/20) + blunders * 50)

/-- `MLInferenceEngine._classify_prediction_rule_based`. -/
def classifyPredictionRuleBased (category : String)
    (features : List (String × ℚ)) : CatResult :=
  let avg_cp_loss := dictGetD features "avg_cp_loss" 0
  let blunder_rate := dictGetD features "blunder_rate" 0
  let mistake_rate := dictGetD features "mistake_rate" 0
  let best_moves := dictGetD features "best_moves" 0
  let brilliant_moves := dictGetD features "brilliant_moves" 0
  let good_moves := dictGetD features "good_moves" 0
  if category = "tactical" then
    let accuracy := 1 - blunder_rate - mistake_rate * (1/2)
    let tactical_score := accuracy * 60 + best_moves * 30 + brilliant_moves * 10
    scoreToResult (pyMax 0 (pyMin 100 tactical_score))
  else if category = "positional" then
    let accuracy := 1 - blunder_rate - mistake_rate * (7/10)
    let quality := best_moves * (3/10) + good_moves * (1/5)
    let positional_score := accuracy * 70 + quality * 100
    scoreToResult (pyMax 0 (pyMin 100 positional_score))
  else if category = "time_management" then
    let time_pressure := dictGetD features "time_pressure_moves" 0
    let time_score := (1 - time_pressure) * 70 + (1 - blunder_rate) * 30
    scoreToResult (pyMax 0 (pyMin 100 time_score))
  else
    let pair : ℚ × ℚ :=
      if category = "opening" then
        (dictGetD features "avg_cp_loss_opening" avg_cp_loss,
         dictGetD features "blunder_rate_opening" blunder_rate)
      else if category = "middlegame" then
        (dictGetD features "avg_cp_loss_middlegame" avg_cp_loss,
         dictGetD features "blunder_rate_middlegame" blunder_rate)
      else if category = "endgame" then
        (dictGetD features "avg_cp_loss_endgame" avg_cp_loss,
         dictGetD features "blunder_rate_endgame" blunder_rate)
      else (avg_cp_loss, blunder_rate)
    if category = "opening" ∨ category = "middlegame" ∨ category = "endgame" then
      scoreToResult (pyMax 0 (pyMin 100 (phaseScore pair.1 pair.2)))
    else
      scoreToResult 50

/-- The fixed category iteration order of `_get_predictions`. -/
def sixCategories : List String :=
  ["opening", "middlegame", "endgame", "tactical", "positional", "time_management"]

/-- The rule-based gate of `_get_predictions`: the first loaded model is a
plain dict or has no `predict` method. -/
def useRuleBased (models : List (String × MLModel)) : Bool :=
  match models with
  | [] => false
  | (_, m) :: _ => m.isDict || !m.hasPredict

/-- `MLInferenceEngine._get_predictions`: decide once whether to use the
rule-based fallback, then score the six categories in fixed order. -/
def getPredictions (models : List (String × MLModel))
    (features : List (String × ℚ)) : List (String × CatResult) :=
  sixCategories.map (fun category =>
    (category,
     if useRuleBased models then classifyPredictionRuleBased category features
     else classifyPrediction models category features))

/-- The display-name table shared by `_determine_strengths` and
`_determine_weaknesses`. -/
def categoryNames : List (String × String) :=
  [("opening", "Opening"), ("middlegame", "Middlegame"), ("endgame", "Endgame"),
   ("tactical", "Tactical play"), ("positional", "Positional understanding"),
   ("time_management", "Time management")]

/-- The fallback sentence of `_determine_weaknesses`. -/
def noWeaknessSentence : String := "No significant weaknesses - well-rounded player!"

/-- `MLInferenceEngine._determine_weaknesses`: collect the display names of
the categories classified `'weak'` or `'average'`, in iteration order;
if none qualifies return the fixed fallback sentence. -/
def determineWeaknesses (predictions : List (String × CatResult)) : List String :=
  let weaknesses := predictions.foldl (fun acc p =>
    if p.2.classification = "weak" ∨ p.2.classification = "average" then
      acc ++ [((categoryNames.lookup p.1).getD p.1)]
    else acc) []
  if weaknesses = [] then [noWeaknessSentence] else weaknesses

/-! ## Concrete inputs used by counterexamples and witnesses -/

/-- A model table whose `opening` entry is a probability classifier that is
certain of class 0 on every input. -/
def zeroProbaModels : List (String × MLModel) :=
  [("opening", MLModel.probaModel (fun _ => [1, 0, 0]))]

/-- A model table whose `opening` entry is a probability classifier returning
probabilities `[0.9, 0.1]` on every input. -/
def probaCexModels : List (String × MLModel) :=
  [("opening", MLModel.probaModel (fun _ => [9/10, 1/10]))]

/-- The tier-flag count of a `MoveQuality` (used to state that at most one
of the five loss tiers can hold). -/
def tierCount (q : MoveQuality) : ℕ :=
  (if q.is_best then 1 else 0) + (if q.is_good then 1 else 0)
  + (if q.is_inaccuracy then 1 else 0) + (if q.is_mistake then 1 else 0)
  + (if q.is_blunder then 1 else 0)

/-- A move record with a recorded `time_spent` of `t` seconds and no clock,
used to exercise the time-pressure rule. -/
def mkTimedMove (t : ℚ) : MoveAnalysis :=
  ⟨1, "e2e4", 0, 0, 0, "", some t, none, "opening",
   false, false, false, false, true, false⟩

/-- A game whose three timed moves (10s, 10s, 1s) make exactly one move a
time-pressure move: the rush rule fires on the 1-second move. -/
def c7Game : GameAnalysis :=
  ⟨"white", "1-0", [mkTimedMove 10, mkTimedMove 10, mkTimedMove 1], 3⟩

/-- The number of plies of a game that belong to the target player — the
condition guarding the evaluation branch of the mainline loop. -/
def countTargetPlies (color : String) (plies : List Ply) : ℕ :=
  plies.countP (fun p =>
    decide ((color = "white" ∧ p.white_to_move = true)
      ∨ (color = "black" ∧ p.white_to_move = false)))

/-- Invariant of the analyzer session state: the engine-call log has no
duplicates and records exactly the cached fingerprints. -/
def CacheInv (st : AnalyzerState) : Prop :=
  st.calls.Nodup ∧ ∀ fp : String, fp ∈ st.calls ↔ (st.cache.lookup fp).isSome = true

/-- A deterministic engine for concrete runs: every position evaluates to
score 0 with no principal variation. -/
def wEngine : Engine := fun _ => some (.cp 0, none)

/-- A one-ply game by the white player `alice`. -/
def wGame : GameInput :=
  ⟨"alice", "bob", "1-0", [⟨true, "e2e4", none, "p0", "p1", 32, true⟩], none⟩

/-- The move record `analyze_game` produces for `wGame` under `wEngine`. -/
def wRec : MoveAnalysis :=
  ⟨1, "e2e4", 0, 0, 0, "", none, none, "opening",
   false, false, false, false, true, false⟩

/-- The game analysis `analyze_game` produces for `wGame` under `wEngine`. -/
def wAnalysis : GameAnalysis := ⟨"white", "1-0", [wRec], 1⟩

/-- The analyzer state after analysing `wGame` from an empty cache. -/
def wState : AnalyzerState := ⟨[("p1", (0, "")), ("p0", (0, ""))], ["p0", "p1"]⟩

/-- A three-game batch revisiting the fingerprints of `wGame` (transpositions
across games). -/
def c5Games : List GameInput :=
  [wGame,
   ⟨"alice", "bob", "0-1", [⟨true, "d2d4", none, "p0", "p1", 32, true⟩], none⟩,
   wGame]

/-! ## Numeric lemmas -/

theorem pyMax_eq_max (a b : ℚ) : pyMax a b = max a b := by
  unfold pyMax
  rcases le_or_lt b a with h | h
  · rw [if_pos h, max_eq_left h]
  · rw [if_neg (not_le.mpr h), max_eq_right h.le]

theorem pyMin_eq_min (a b : ℚ) : pyMin a b = min a b := by
  unfold pyMin
  rcases le_or_lt a b with h | h
  · rw [if_pos h, min_eq_left h]
  · rw [if_neg (not_le.mpr h), min_eq_right h.le]

theorem pyMaxZ_eq_max (a b : ℤ) : pyMaxZ a b = max a b := by
  unfold pyMaxZ
  rcases le_or_lt b a with h | h
  · rw [if_pos h, max_eq_left h]
  · rw [if_neg (not_le.mpr h), max_eq_right h.le]

theorem pyMinZ_eq_min (a b : ℤ) : pyMinZ a b = min a b := by
  unfold pyMinZ
  rcases le_or_lt a b with h | h
  · rw [if_pos h, min_eq_left h]
  · rw [if_neg (not_le.mpr h), min_eq_right h.le]

theorem pyRound_intCast (n : ℤ) : pyRound (n : ℚ) = n := by
  simp [pyRound]

theorem floor_le_pyRound (q : ℚ) : ⌊q⌋ ≤ pyRound q := by
  unfold pyRound
  dsimp only
  split_ifs <;> omega

theorem pyRound_le_ceil (q : ℚ) : pyRound q ≤ ⌈q⌉ := by
  have hfc : ⌊q⌋ ≤ ⌈q⌉ := Int.floor_le_ceil q
  have key : ∀ hr : ¬ (q - ⌊q⌋ < 1/2), ⌊q⌋ + 1 ≤ ⌈q⌉ := by
    intro hr
    have h2 : (⌊q⌋ : ℚ) < q := by
      have : (1:ℚ)/2 ≤ q - ⌊q⌋ := le_of_not_lt hr
      linarith
    have := Int.lt_ceil.mpr h2
    omega
  unfold pyRound
  dsimp only
  split_ifs with h1 h2 h3
  · exact hfc
  · exact key h1
  · exact hfc
  · exact key h1

theorem pyRound_nonneg {q : ℚ} (h : 0 ≤ q) : 0 ≤ pyRound q := by
  have := floor_le_pyRound q
  have h0 : 0 ≤ ⌊q⌋ := Int.floor_nonneg.mpr h
  omega

theorem pyRound_le_of_le {q : ℚ} {n : ℤ} (h : q ≤ (n : ℚ)) : pyRound q ≤ n := by
  have := pyRound_le_ceil q
  have hc : ⌈q⌉ ≤ n := Int.ceil_le.mpr h
  omega

theorem pyTrunc_eq_floor {q : ℚ} (h : 0 ≤ q) : pyTrunc q = ⌊q⌋ := by
  simp [pyTrunc, h]

theorem pyTrunc_nonneg {q : ℚ} (h : 0 ≤ q) : 0 ≤ pyTrunc q := by
  rw [pyTrunc_eq_floor h]
  exact Int.floor_nonneg.mpr h

theorem pyTrunc_le_of_le {q : ℚ} {n : ℤ} (h0 : 0 ≤ q) (h : q ≤ (n : ℚ)) :
    pyTrunc q ≤ n := by
  rw [pyTrunc_eq_floor h0]
  exact le_trans (Int.floor_mono h) (le_of_eq (Int.floor_intCast n))

/-! ## C3: weaknesses list -/

theorem weaknesses_foldl_eq (preds : List (String × CatResult)) (acc : List String) :
    preds.foldl (fun acc p =>
      if p.2.classification = "weak" ∨ p.2.classification = "average" then
        acc ++ [((categoryNames.lookup p.1).getD p.1)]
      else acc) acc
    = acc ++ (preds.filter (fun p =>
        decide (p.2.classification = "weak" ∨ p.2.classification = "average"))).map
          (fun p => (categoryNames.lookup p.1).getD p.1) := by
  induction preds generalizing acc with
  | nil => simp
  | cons hd tl ih =>
    by_cases h : hd.2.classification = "weak" ∨ hd.2.classification = "average"
    · simp only [List.foldl_cons, List.filter_cons, h, if_pos h, decide_eq_true_eq]
      rw [ih]
      simp [h]
    · simp only [List.foldl_cons, List.filter_cons, if_neg h]
      rw [ih]
      simp [h]

/-- C3 (corrected): `_determine_weaknesses` returns the display names of the
categories classified `"weak"` **or** `"average"` (in iteration order), and
the fixed fallback sentence exactly when no category is so classified. -/
theorem determineWeaknesses_spec (predictions : List (String × CatResult)) :
    determineWeaknesses predictions =
      if (predictions.filter (fun p =>
            decide (p.2.classification = "weak" ∨ p.2.classification = "average"))).map
              (fun p => (categoryNames.lookup p.1).getD p.1) = [] then
        [noWeaknessSentence]
      else
        (predictions.filter (fun p =>
          decide (p.2.classification = "weak" ∨ p.2.classification = "average"))).map
            (fun p => (categoryNames.lookup p.1).getD p.1) := by
  unfold determineWeaknesses
  rw [weaknesses_foldl_eq predictions []]
  simp

/-- C3 counterexample: a predictions map whose only category is classified
`"average"` (so no category is `"weak"`) yields `["Opening"]`, not the
fallback sentence — the claim that weaknesses are exactly the `"weak"`
categories fails on the code. -/
theorem determineWeaknesses_average_cex :
    ([(("opening" : String), (⟨"average", 1/2, 50⟩ : CatResult))].filter
        (fun p => decide (p.2.classification = "weak"))) = []
    ∧ determineWeaknesses [("opening", ⟨"average", 1/2, 50⟩)] = ["Opening"]
    ∧ ("Opening" : String) ≠ noWeaknessSentence := by
  refine ⟨by decide, ?_, by decide⟩
  decide

/-! ## C2: no all-zero phase guard in _classify_prediction -/

/-- C2 counterexample: for the phase-bound category `opening` with every
phase-specific feature equal to zero (the built feature row is `[0, 0]`),
`_classify_prediction` does **not** short-circuit to the neutral result
`(average, 0.5, 50)`: it runs the classifier and returns `(weak, 1.0, 33)`. -/
theorem classifyPrediction_no_shortcircuit_cex :
    buildX ["avg_cp_loss_opening", "blunder_rate_opening"] [] = [0, 0]
    ∧ FEATURE_MAPPINGS.lookup "opening" =
        some ["avg_cp_loss_opening", "blunder_rate_opening"]
    ∧ classifyPrediction zeroProbaModels "opening" [] = ⟨"weak", 1, 33⟩
    ∧ (⟨"weak", 1, 33⟩ : CatResult) ≠ defaultClassification := by
  refine ⟨by simp [buildX, dictGetD], by simp [FEATURE_MAPPINGS], ?_, ?_⟩
  · norm_num [classifyPrediction, zeroProbaModels, FEATURE_MAPPINGS, buildX, dictGetD,
      probaResult, npArgmax, npArgmaxFrom, npMax, pyMax, pyMin, pyMaxZ, pyMinZ,
      pyTrunc, pyRound2, pyRound]
  · simp [defaultClassification]

/-- C2 (corrected): `_classify_prediction` contains no zero-phase-data guard
at all. For a phase-bound category whose looked-up probability classifier is
present, the returned result is the classifier-derived `probaResult` of the
built feature row even when every feature in that row is exactly zero; the
fixed neutral result arises only from the failure paths (missing model,
missing feature mapping, no predict method, empty probability row). -/
theorem classifyPrediction_runs_classifier_on_zero
    (models : List (String × MLModel)) (features : List (String × ℚ))
    (category : String) (f : List ℚ → List ℚ) (names : List String)
    (_hphase : category = "opening" ∨ category = "middlegame" ∨ category = "endgame")
    (hm : models.lookup category = some (.probaModel f))
    (hn : FEATURE_MAPPINGS.lookup category = some names)
    (_hzero : ∀ x ∈ buildX names features, x = 0) :
    classifyPrediction models category features = probaResult (f (buildX names features)) := by
  simp only [classifyPrediction, hm, hn]

/-- C2 witness: the amended theorem applied to the concrete all-zero input of
the counterexample. -/
theorem classifyPrediction_runs_classifier_on_zero_witness :
    classifyPrediction zeroProbaModels "opening" [] = probaResult [1, 0, 0] :=
  classifyPrediction_runs_classifier_on_zero zeroProbaModels [] "opening"
    (fun _ => [1, 0, 0]) ["avg_cp_loss_opening", "blunder_rate_opening"]
    (Or.inl rfl) rfl rfl (by simp [buildX, dictGetD])

/-! ## C4: label→score band mapping -/

theorem le_foldl_pyMax (l : List ℚ) (b : ℚ) : b ≤ l.foldl pyMax b := by
  induction l generalizing b with
  | nil => simp
  | cons x xs ih =>
    simp only [List.foldl_cons]
    refine le_trans ?_ (ih (pyMax b x))
    rw [pyMax_eq_max]
    exact le_max_left b x

theorem foldl_pyMax_le (l : List ℚ) (b c : ℚ) (hb : b ≤ c) (hl : ∀ x ∈ l, x ≤ c) :
    l.foldl pyMax b ≤ c := by
  induction l generalizing b with
  | nil => simpa using hb
  | cons x xs ih =>
    simp only [List.foldl_cons]
    refine ih (pyMax b x) ?_ (fun y hy => hl y (List.mem_cons_of_mem x hy))
    rw [pyMax_eq_max]
    exact max_le hb (hl x (List.mem_cons_self x xs))

theorem npMax_bounds (p : ℚ) (ps : List ℚ)
    (h : ∀ q ∈ p :: ps, 0 ≤ q ∧ q ≤ 1) :
    0 ≤ npMax (p :: ps) ∧ npMax (p :: ps) ≤ 1 := by
  constructor
  · exact le_trans (h p (List.mem_cons_self p ps)).1 (le_foldl_pyMax ps p)
  · exact foldl_pyMax_le ps p 1 (h p (List.mem_cons_self p ps)).2
      (fun x hx => (h x (List.mem_cons_of_mem p hx)).2)

theorem probaResult_cons (p : ℚ) (ps : List ℚ) :
    probaResult (p :: ps) =
      (let conf := npMax (p :: ps)
       let k := npArgmax (p :: ps)
       let pair : String × ℤ :=
         if k = 0 then ("weak", pyTrunc (conf * 33))
         else if k = 1 then ("average", 34 + pyTrunc (conf * 33))
         else ("excellent", 68 + pyTrunc (conf * 32))
       ⟨pair.1, pyRound2 (pyMax 0 (pyMin 1 conf)), pyMaxZ 0 (pyMinZ 100 pair.2)⟩) := rfl

/-- C4 (corrected): for a category scored through `predict_proba`, with
`confidence` the winning class's probability (all probabilities in `[0,1]`),
the numeric score uses Python `int(...)` truncation, not rounding:
weak → `trunc(confidence·33)` (which lies in `[0,33]`), average →
`34 + trunc(confidence·33)` (in `[34,67]`), excellent →
`68 + trunc(confidence·32)` (in `[68,100]`); the reported confidence is the
winning probability rounded to two decimals. -/
theorem classifyPrediction_band_truncation
    (models : List (String × MLModel)) (category : String)
    (features : List (String × ℚ)) (f : List ℚ → List ℚ) (names : List String)
    (proba : List ℚ)
    (hm : models.lookup category = some (.probaModel f))
    (hn : FEATURE_MAPPINGS.lookup category = some names)
    (hp : proba = f (buildX names features))
    (hne : proba ≠ [])
    (hrange : ∀ p ∈ proba, 0 ≤ p ∧ p ≤ 1) :
    (classifyPrediction models category features).confidence = pyRound2 (npMax proba)
    ∧ (npArgmax proba = 0 →
        (classifyPrediction models category features).classification = "weak"
        ∧ (classifyPrediction models category features).numeric_score
            = pyTrunc (npMax proba * 33)
        ∧ 0 ≤ (classifyPrediction models category features).numeric_score
        ∧ (classifyPrediction models category features).numeric_score ≤ 33)
    ∧ (npArgmax proba = 1 →
        (classifyPrediction models category features).classification = "average"
        ∧ (classifyPrediction models category features).numeric_score
            = 34 + pyTrunc (npMax proba * 33)
        ∧ 34 ≤ (classifyPrediction models category features).numeric_score
        ∧ (classifyPrediction models category features).numeric_score ≤ 67)
    ∧ (2 ≤ npArgmax proba →
        (classifyPrediction models category features).classification = "excellent"
        ∧ (classifyPrediction models category features).numeric_score
            = 68 + pyTrunc (npMax proba * 32)
        ∧ 68 ≤ (classifyPrediction models category features).numeric_score
        ∧ (classifyPrediction models category features).numeric_score ≤ 100) := by
  have hcp : classifyPrediction models category features = probaResult proba := by
    simp only [classifyPrediction, hm, hn, hp]
  rcases proba with _ | ⟨p, ps⟩
  · exact absurd rfl hne
  have hb := npMax_bounds p ps hrange
  set conf := npMax (p :: ps) with hconf
  have hclamp : pyMax 0 (pyMin 1 conf) = conf := by
    rw [pyMax_eq_max, pyMin_eq_min, min_eq_right hb.2, max_eq_right hb.1]
  have ht33 : 0 ≤ pyTrunc (conf * 33) ∧ pyTrunc (conf * 33) ≤ 33 := by
    constructor
    · exact pyTrunc_nonneg (by nlinarith [hb.1])
    · refine pyTrunc_le_of_le (by nlinarith [hb.1]) ?_
      push_cast
      nlinarith [hb.2, hb.1]
  have ht32 : 0 ≤ pyTrunc (conf * 32) ∧ pyTrunc (conf * 32) ≤ 32 := by
    constructor
    · exact pyTrunc_nonneg (by nlinarith [hb.1])
    · refine pyTrunc_le_of_le (by nlinarith [hb.1]) ?_
      push_cast
      nlinarith [hb.2, hb.1]
  have hzclamp : ∀ n : ℤ, 0 ≤ n → n ≤ 100 → pyMaxZ 0 (pyMinZ 100 n) = n := by
    intro n h0 h1
    rw [pyMaxZ_eq_max, pyMinZ_eq_min, min_eq_right h1, max_eq_right h0]
  refine ⟨?_, ?_, ?_, ?_⟩
  · rw [hcp, probaResult_cons]
    simp only [← hconf, hclamp]
  · intro hk
    rw [hcp, probaResult_cons]
    simp only [← hconf, hk]
    norm_num
    rw [hzclamp _ ht33.1 (le_trans ht33.2 (by omega))]
    exact ⟨rfl, ht33.1, ht33.2⟩
  · intro hk
    rw [hcp, probaResult_cons]
    simp only [← hconf, hk]
    norm_num
    have h0 : (0:ℤ) ≤ 34 + pyTrunc (conf * 33) := by omega
    have h1 : 34 + pyTrunc (conf * 33) ≤ 100 := by omega
    rw [hzclamp _ h0 h1]
    refine ⟨rfl, by omega, by omega⟩
  · intro hk
    rw [hcp, probaResult_cons]
    have hk0 : ¬(npArgmax (p :: ps) = 0) := by omega
    have hk1 : ¬(npArgmax (p :: ps) = 1) := by omega
    simp only [← hconf, if_neg hk0, if_neg hk1]
    norm_num
    have h0 : (0:ℤ) ≤ 68 + pyTrunc (conf * 32) := by omega
    have h1 : 68 + pyTrunc (conf * 32) ≤ 100 := by omega
    rw [hzclamp _ h0 h1]
    refine ⟨rfl, by omega, by omega⟩

/-- C4 counterexample: with winning-class probability `0.9` for the weak
class, the code returns `int(0.9 × 33) = int(29.7) = 29`, whereas the claimed
`round(0.9 × 33)` is `30`. -/
theorem classifyPrediction_trunc_not_round_cex :
    classifyPrediction probaCexModels "opening" [] = ⟨"weak", 9/10, 29⟩
    ∧ pyRound ((9/10 : ℚ) * 33) = 30
    ∧ ((29 : ℤ) ≠ 30) := by
  refine ⟨?_, ?_, by decide⟩
  · norm_num [classifyPrediction, probaCexModels, FEATURE_MAPPINGS, buildX, dictGetD,
      probaResult, npArgmax, npArgmaxFrom, npMax, pyMax, pyMin, pyMaxZ, pyMinZ,
      pyTrunc, pyRound2, pyRound]
  · norm_num [pyRound]

/-- C4 witness: the amended theorem applied to the concrete probability row
`[0.9, 0.1]`, whose argmax class is 0 (weak). -/
theorem classifyPrediction_band_truncation_witness :
    (classifyPrediction probaCexModels "opening" []).classification = "weak"
    ∧ (classifyPrediction probaCexModels "opening" []).numeric_score
        = pyTrunc (npMax [(9:ℚ)/10, 1/10] * 33) := by
  have h := classifyPrediction_band_truncation probaCexModels "opening" []
    (fun _ => [9/10, 1/10]) ["avg_cp_loss_opening", "blunder_rate_opening"]
    [(9:ℚ)/10, 1/10] rfl rfl rfl (by simp) (by norm_num)
  have h0 : npArgmax [(9:ℚ)/10, 1/10] = 0 := by
    norm_num [npArgmax, npArgmaxFrom]
  exact ⟨(h.2.1 h0).1, (h.2.1 h0).2.1⟩

/-! ## C10: rule-based fallback -/

theorem clamp01_bounds (e : ℚ) :
    0 ≤ pyMax 0 (pyMin 100 e) ∧ pyMax 0 (pyMin 100 e) ≤ 100 := by
  rw [pyMax_eq_max, pyMin_eq_min]
  exact ⟨le_max_left 0 _, max_le (by norm_num) (min_le_left _ _)⟩

theorem scoreToResult_props (s : ℚ) (h0 : 0 ≤ s) (h1 : s ≤ 100) :
    ((scoreToResult s).classification = "excellent" ↔ 68 ≤ (scoreToResult s).numeric_score)
    ∧ ((scoreToResult s).classification = "average" ↔
        34 ≤ (scoreToResult s).numeric_score ∧ (scoreToResult s).numeric_score < 68)
    ∧ ((scoreToResult s).classification = "weak" ↔ (scoreToResult s).numeric_score < 34)
    ∧ (scoreToResult s).confidence = pyRound2 (s / 100) := by
  have hc : pyMax 0 (pyMin 100 s) = s := by
    rw [pyMax_eq_max, pyMin_eq_min, min_eq_right h1, max_eq_right h0]
  have hfl : pyTrunc s = ⌊s⌋ := pyTrunc_eq_floor h0
  simp only [scoreToResult, hc, hfl]
  split_ifs with hA hB
  · have hf : (68:ℤ) ≤ ⌊s⌋ := Int.le_floor.mpr (by exact_mod_cast hA)
    refine ⟨?_, ?_, ?_, trivial⟩
    · simp [hf]
    · constructor
      · intro h; exact absurd h (by decide)
      · intro h; omega
    · constructor
      · intro h; exact absurd h (by decide)
      · intro h; omega
  · have hf : (34:ℤ) ≤ ⌊s⌋ := Int.le_floor.mpr (by exact_mod_cast hB)
    have hf2 : ⌊s⌋ < 68 := Int.floor_lt.mpr (by exact_mod_cast (not_le.mp hA))
    refine ⟨?_, ?_, ?_, trivial⟩
    · constructor
      · intro h; exact absurd h (by decide)
      · intro h; omega
    · simp [hf, hf2]
    · constructor
      · intro h; exact absurd h (by decide)
      · intro h; omega
  · have hf : ⌊s⌋ < 34 := Int.floor_lt.mpr (by exact_mod_cast (not_le.mp hB))
    refine ⟨?_, ?_, ?_, trivial⟩
    · constructor
      · intro h; exact absurd h (by decide)
      · intro h; omega
    · constructor
      · intro h; exact absurd h (by decide)
      · intro h; omega
    · simp [hf]

theorem ruleBased_clamped (c : String) (hc : c ∈ sixCategories)
    (features : List (String × ℚ)) :
    ∃ e : ℚ, classifyPredictionRuleBased c features
      = scoreToResult (pyMax 0 (pyMin 100 e)) := by
  have hc2 : c = "opening" ∨ c = "middlegame" ∨ c = "endgame" ∨ c = "tactical"
      ∨ c = "positional" ∨ c = "time_management" := by
    simpa [sixCategories] using hc
  rcases hc2 with rfl | rfl | rfl | rfl | rfl | rfl
  all_goals exact ⟨_, rfl⟩

/-- C10 (confirmed): when the first loaded artifact is a plain dict or lacks
a `predict` method, `_get_predictions` scores all six categories with the
rule-based heuristic, and every rule-based result is a `_score_to_result`
of a clamped score `s ∈ [0,100]` satisfying: classification is
`"excellent"` iff `numeric_score ≥ 68`, `"average"` iff
`34 ≤ numeric_score < 68`, `"weak"` otherwise, with confidence
`round(s/100, 2)`. -/
theorem getPredictions_rule_based
    (models : List (String × MLModel)) (features : List (String × ℚ))
    (k : String) (m : MLModel) (rest : List (String × MLModel))
    (hmodels : models = (k, m) :: rest)
    (hgate : (m.isDict || !m.hasPredict) = true) :
    getPredictions models features
      = sixCategories.map (fun c => (c, classifyPredictionRuleBased c features))
    ∧ ∀ c ∈ sixCategories, ∃ s : ℚ, 0 ≤ s ∧ s ≤ 100
        ∧ classifyPredictionRuleBased c features = scoreToResult s
        ∧ ((scoreToResult s).classification = "excellent" ↔
            68 ≤ (scoreToResult s).numeric_score)
        ∧ ((scoreToResult s).classification = "average" ↔
            34 ≤ (scoreToResult s).numeric_score ∧ (scoreToResult s).numeric_score < 68)
        ∧ ((scoreToResult s).classification = "weak" ↔
            (scoreToResult s).numeric_score < 34)
        ∧ (scoreToResult s).confidence = pyRound2 (s / 100) := by
  constructor
  · subst hmodels
    simp [getPredictions, useRuleBased, hgate]
  · intro c hc
    obtain ⟨e, he⟩ := ruleBased_clamped c hc features
    obtain ⟨h0, h1⟩ := clamp01_bounds e
    have hp := scoreToResult_props _ h0 h1
    exact ⟨_, h0, h1, he, hp.1, hp.2.1, hp.2.2.1, hp.2.2.2⟩

/-- C10 witness: a dict artifact as first model routes all six categories to
the rule-based classifier. -/
theorem getPredictions_rule_based_witness :
    getPredictions [("opening", MLModel.dictModel)] []
      = sixCategories.map (fun c => (c, classifyPredictionRuleBased c [])) :=
  (getPredictions_rule_based [("opening", MLModel.dictModel)] []
    "opening" MLModel.dictModel [] rfl rfl).1

/-! ## C6: move classification tiers -/

theorem classifyMove_int (L b a : ℤ) (h1 : L ≤ 500) :
    classifyMove (L:ℚ) (b:ℚ) (a:ℚ) =
      ⟨decide (50 ≤ a - b), decide (L ≤ 10), decide (10 < L ∧ L ≤ 25),
       decide (50 ≤ L ∧ L < 100), decide (100 ≤ L ∧ L < 200), decide (200 ≤ L)⟩ := by
  unfold classifyMove
  have hmin : pyMin (L:ℚ) ((MAX_CP_LOSS:ℤ):ℚ) = (L:ℚ) := by
    unfold pyMin MAX_CP_LOSS
    rw [if_pos]
    exact_mod_cast h1
  have hsub : (a:ℚ) - (b:ℚ) = ((a - b : ℤ) : ℚ) := by push_cast; ring
  rw [hmin, pyRound_intCast, hsub, pyRound_intCast]
  rfl

/-- C6 (confirmed): for every capped integer centipawn loss `L ∈ [0,500]`
(the only losses `analyze_game` produces) and integer evaluations,
`_classify_move` sets `is_best` iff `L ≤ 10`, `is_good` iff `10 < L ≤ 25`,
`is_inaccuracy` iff `50 ≤ L < 100`, `is_mistake` iff `100 ≤ L < 200`,
`is_blunder` iff `L ≥ 200`; losses in the gap `(25,50)` set none of the five
tier flags; `is_brilliant` holds iff `eval_after − eval_before ≥ 50`; and on
every rational input at most one of the five tier flags is set. -/
theorem classifyMove_tiers (L b a : ℤ) (h0 : 0 ≤ L) (h1 : L ≤ 500) :
    ((classifyMove (L:ℚ) (b:ℚ) (a:ℚ)).is_best = true ↔ L ≤ 10)
    ∧ ((classifyMove (L:ℚ) (b:ℚ) (a:ℚ)).is_good = true ↔ 10 < L ∧ L ≤ 25)
    ∧ ((classifyMove (L:ℚ) (b:ℚ) (a:ℚ)).is_inaccuracy = true ↔ 50 ≤ L ∧ L < 100)
    ∧ ((classifyMove (L:ℚ) (b:ℚ) (a:ℚ)).is_mistake = true ↔ 100 ≤ L ∧ L < 200)
    ∧ ((classifyMove (L:ℚ) (b:ℚ) (a:ℚ)).is_blunder = true ↔ 200 ≤ L)
    ∧ (25 < L → L < 50 → tierCount (classifyMove (L:ℚ) (b:ℚ) (a:ℚ)) = 0)
    ∧ ((classifyMove (L:ℚ) (b:ℚ) (a:ℚ)).is_brilliant = true ↔ 50 ≤ a - b)
    ∧ (∀ x y z : ℚ, tierCount (classifyMove x y z) ≤ 1) := by
  rw [classifyMove_int L b a h1]
  refine ⟨by simp, by simp, by simp, by simp, by simp, ?_, by simp, ?_⟩
  · intro hg1 hg2
    have e1 : decide (L ≤ 10) = false := by simp; omega
    have e2 : decide (10 < L ∧ L ≤ 25) = false := by simp; omega
    have e3 : decide (50 ≤ L ∧ L < 100) = false := by simp; omega
    have e4 : decide (100 ≤ L ∧ L < 200) = false := by simp; omega
    have e5 : decide (200 ≤ L) = false := by simp; omega
    simp [tierCount, e1, e2, e3, e4, e5]
  · intro x y z
    unfold classifyMove tierCount
    dsimp only
    split_ifs <;>
      simp_all only [decide_eq_true_eq, BEST_THRESHOLD, GOOD_THRESHOLD,
        INACCURACY_THRESHOLD, MISTAKE_THRESHOLD, BLUNDER_THRESHOLD] <;>
      omega

/-- C6 witness: the gap value `L = 30` with a 60-centipawn evaluation gain
sets no tier flag but is brilliant. -/
theorem classifyMove_tiers_witness :
    (classifyMove ((30:ℤ):ℚ) ((0:ℤ):ℚ) ((60:ℤ):ℚ)).is_brilliant = true
    ∧ tierCount (classifyMove ((30:ℤ):ℚ) ((0:ℤ):ℚ) ((60:ℤ):ℚ)) = 0 := by
  have h := classifyMove_tiers 30 0 60 (by decide) (by decide)
  exact ⟨(h.2.2.2.2.2.2.1).mpr (by decide), h.2.2.2.2.2.1 (by decide) (by decide)⟩

/-! ## C8: empty-input idempotence of extract_features -/

/-- C8 (confirmed): `extract_features` of the empty list is the fixed
all-zero 15-feature vector (it never raises), and any list of games whose
combined move count is zero yields exactly the same vector. -/
theorem extractFeatures_empty_idem :
    extractFeatures [] = zeroFeatures
    ∧ ∀ gs : List GameAnalysis, (gs.flatMap GameAnalysis.moves).length = 0 →
        extractFeatures gs = extractFeatures [] := by
  refine ⟨rfl, ?_⟩
  intro gs h
  rw [show extractFeatures [] = zeroFeatures from rfl]
  by_cases hgs : gs.isEmpty
  · simp [extractFeatures, hgs]
  · simp [extractFeatures, hgs, h]

/-- C8 witness: a single parsed game with zero analyzed moves produces the
same all-zero vector as the empty batch. -/
theorem extractFeatures_empty_idem_witness :
    extractFeatures [⟨"white", "1-0", [], 0⟩] = extractFeatures [] :=
  extractFeatures_empty_idem.2 [⟨"white", "1-0", [], 0⟩] rfl

/-! ## C7: time-pressure rate -/

theorem foldl_count_eq {α : Type} (p : α → Bool) (l : List α) (n : ℕ) :
    l.foldl (fun acc m => if p m then acc + 1 else acc) n = n + l.countP p := by
  induction l generalizing n with
  | nil => simp
  | cons x xs ih =>
    by_cases h : p x <;> (simp [List.countP_cons, h, ih]; try omega)

/-- C7 (corrected): the `time_pressure_moves` feature equals the fraction of
timed moves satisfying `clock_remaining < 60` OR
(`time_spent < mean_time/3` AND `time_spent < 2`), with `mean_time` the mean
`time_spent` of the batch's own timed moves, **rounded half-up to six decimal
places** (`ultra_round`); it is `0.0` when no move has a recorded time. -/
theorem timePressure_rounded_fraction (gs : List GameAnalysis) :
    (extractFeatures gs).lookup "time_pressure_moves" =
      some (
        let timed := (gs.flatMap GameAnalysis.moves).filter (fun m => m.time_spent.isSome)
        if timed.length = 0 then (0:ℚ)
        else
          ultraRound (((timed.countP (fun m =>
            (match m.clock_remaining with
             | some c => decide (c < 60)
             | none => false)
            || (decide (m.time_spent.getD 0 <
                  npMean (timed.map (fun m2 => m2.time_spent.getD 0)) / 3)
                && decide (m.time_spent.getD 0 < 2)))) : ℚ) / timed.length)) := by
  by_cases hgs : gs.isEmpty
  · have hnil : gs = [] := List.isEmpty_iff.mp hgs
    subst hnil
    rfl
  · by_cases htot : (gs.flatMap GameAnalysis.moves).length = 0
    · have hfm : gs.flatMap GameAnalysis.moves = [] := List.length_eq_zero.mp htot
      simp only [extractFeatures, hgs, Bool.false_eq_true, if_false, htot, if_pos htot,
        hfm, List.filter_nil, List.length_nil]
      rfl
    · simp only [extractFeatures, hgs, Bool.false_eq_true, if_false, htot, if_neg htot]
      rw [foldl_count_eq]
      simp [List.lookup]
      by_cases hmt :
          ((gs.flatMap GameAnalysis.moves).filter (fun m => m.time_spent.isSome)).length = 0 <;>
        simp [hmt]

/-- C7 counterexample: for a batch with three timed moves of which exactly
one is a pressure move, the stored feature is the six-decimal rounding
`0.333333`, not the fraction `1/3` itself. -/
theorem timePressure_not_exact_fraction_cex :
    (([c7Game].flatMap GameAnalysis.moves).filter
        (fun m => m.time_spent.isSome)).countP (fun m =>
          (match m.clock_remaining with
           | some c => decide (c < 60)
           | none => false)
          || (decide (m.time_spent.getD 0 <
                npMean ((([c7Game].flatMap GameAnalysis.moves).filter
                  (fun m => m.time_spent.isSome)).map (fun m2 => m2.time_spent.getD 0)) / 3)
              && decide (m.time_spent.getD 0 < 2))) = 1
    ∧ (([c7Game].flatMap GameAnalysis.moves).filter
        (fun m => m.time_spent.isSome)).length = 3
    ∧ (extractFeatures [c7Game]).lookup "time_pressure_moves" = some (333333/1000000)
    ∧ ((333333 : ℚ)/1000000) ≠ 1/3 := by
  refine ⟨?_, ?_, ?_, by norm_num⟩
  · norm_num [c7Game, mkTimedMove, npMean, List.countP, List.countP.go]
  · norm_num [c7Game, mkTimedMove]
  · norm_num [extractFeatures, c7Game, mkTimedMove, npMean, ultraRound,
      List.lookup, List.countP, List.countP.go]
    rfl

/-! ## C9: centipawn-loss capping -/

theorem clamp_cp_bounds (x : ℚ) :
    0 ≤ pyMin (pyMax 0 x) ((MAX_CP_LOSS:ℤ):ℚ)
    ∧ pyMin (pyMax 0 x) ((MAX_CP_LOSS:ℤ):ℚ) ≤ ((MAX_CP_LOSS:ℤ):ℚ) := by
  rw [pyMin_eq_min, pyMax_eq_max]
  exact ⟨le_min (le_max_left 0 x) (by norm_num [MAX_CP_LOSS]), min_le_right _ _⟩

theorem cast_pyRound_clamp_bounds (x : ℚ) :
    0 ≤ ((pyRound (pyMin (pyMax 0 x) ((MAX_CP_LOSS:ℤ):ℚ)) : ℤ) : ℚ)
    ∧ ((pyRound (pyMin (pyMax 0 x) ((MAX_CP_LOSS:ℤ):ℚ)) : ℤ) : ℚ) ≤ 500 := by
  obtain ⟨h0, h1⟩ := clamp_cp_bounds x
  constructor
  · exact_mod_cast pyRound_nonneg h0
  · have h2 : pyRound (pyMin (pyMax 0 x) ((MAX_CP_LOSS:ℤ):ℚ)) ≤ MAX_CP_LOSS :=
      pyRound_le_of_le h1
    have h500 : MAX_CP_LOSS = 500 := rfl
    rw [h500] at h2
    exact_mod_cast h2

theorem processPly_cp_bounds (engine : Engine) (color : String) (ls : LoopState)
    (ply : Ply)
    (h : ∀ m ∈ ls.moves, 0 ≤ m.centipawn_loss ∧ m.centipawn_loss ≤ 500) :
    ∀ m ∈ (processPly engine color ls ply).moves,
      0 ≤ m.centipawn_loss ∧ m.centipawn_loss ≤ 500 := by
  intro m hm
  unfold processPly at hm
  by_cases hc : (color = "white" ∧ ply.white_to_move = true)
      ∨ (color = "black" ∧ ply.white_to_move = false)
  · simp only [if_pos hc, List.mem_append, List.mem_singleton] at hm
    rcases hm with hm | hm
    · exact h m hm
    · subst hm
      exact cast_pyRound_clamp_bounds _
  · simp only [if_neg hc] at hm
    exact h m hm

theorem processPlies_cp_bounds (engine : Engine) (color : String)
    (plies : List Ply) (ls : LoopState)
    (h : ∀ m ∈ ls.moves, 0 ≤ m.centipawn_loss ∧ m.centipawn_loss ≤ 500) :
    ∀ m ∈ (processPlies engine color plies ls).moves,
      0 ≤ m.centipawn_loss ∧ m.centipawn_loss ≤ 500 := by
  induction plies generalizing ls with
  | nil => exact h
  | cons p ps ih =>
    exact ih (processPly engine color ls p) (processPly_cp_bounds engine color ls p h)

/-- C9 (confirmed): every `MoveAnalysis` record produced by `analyze_game`
has `0 ≤ centipawn_loss ≤ 500`. -/
theorem analyzeGame_cp_loss_capped (engine : Engine) (g : GameInput)
    (player_name : String) (ast : AnalyzerState) (a : GameAnalysis)
    (st : AnalyzerState)
    (heq : analyzeGame engine g player_name ast = (some a, st)) :
    ∀ m ∈ a.moves, 0 ≤ m.centipawn_loss ∧ m.centipawn_loss ≤ 500 := by
  unfold analyzeGame at heq
  dsimp only at heq
  split_ifs at heq with h1 h2 <;> rw [Prod.mk.injEq] at heq
  · exact absurd heq.1 (by simp)
  · exact absurd heq.1 (by simp)
  · have hsome := heq.1
    injection hsome with ha
    have hmoves : a.moves = (processPlies engine
        (determinePlayerColor player_name g.white g.black)
        (match g.raise_at with | some n => g.plies.take n | none => g.plies)
        ⟨none, none, 0, [], ast⟩).moves := by
      rw [← ha]
    rw [hmoves]
    exact processPlies_cp_bounds _ _ _ _ (by intro m hm; exact absurd hm (by simp))

/-- C9 witness: the record produced for the one-ply game `wGame` has its
centipawn loss inside `[0, 500]`. -/
theorem analyzeGame_cp_loss_capped_witness :
    0 ≤ wRec.centipawn_loss ∧ wRec.centipawn_loss ≤ 500 := by
  have hround0 : pyRound (0:ℚ) = 0 := by norm_num [pyRound]
  have hap0 : analyzePosition wEngine ⟨[], []⟩ "p0"
      = ((0, ""), ⟨[("p0", (0, ""))], ["p0"]⟩) := by
    simp [analyzePosition, wEngine, evalToCentipawns, hround0, List.lookup]
  have hap1 : analyzePosition wEngine ⟨[("p0", (0, ""))], ["p0"]⟩ "p1"
      = ((0, ""), wState) := by
    simp [analyzePosition, wEngine, evalToCentipawns, hround0, List.lookup, wState]
  have hstep : processPly wEngine "white" ⟨none, none, 0, [], ⟨[], []⟩⟩
      ⟨true, "e2e4", none, "p0", "p1", 32, true⟩ = ⟨none, none, 1, [wRec], wState⟩ := by
    simp only [processPly, hap0, hap1]
    norm_num [classifyMove, getGamePhase, wRec, pyMin, pyMax, pyRound,
      BEST_THRESHOLD, GOOD_THRESHOLD, INACCURACY_THRESHOLD, MISTAKE_THRESHOLD,
      BLUNDER_THRESHOLD, BRILLIANT_GAIN, MAX_CP_LOSS]
  have hcol : determinePlayerColor "alice" "alice" "bob" = "white" := by decide
  have heval : analyzeGame wEngine wGame "alice" ⟨[], []⟩ = (some wAnalysis, wState) := by
    simp [analyzeGame, wGame, hcol, processPlies, hstep, wAnalysis]
  exact analyzeGame_cp_loss_capped wEngine wGame "alice" ⟨[], []⟩ wAnalysis wState heval
    wRec (by simp [wAnalysis])

/-! ## C1: discard policy of analyze_game -/

theorem processPly_moves_len (engine : Engine) (color : String) (ls : LoopState)
    (ply : Ply) :
    (processPly engine color ls ply).moves.length = ls.moves.length +
      (if (color = "white" ∧ ply.white_to_move = true)
          ∨ (color = "black" ∧ ply.white_to_move = false) then 1 else 0) := by
  unfold processPly
  by_cases hc : (color = "white" ∧ ply.white_to_move = true)
      ∨ (color = "black" ∧ ply.white_to_move = false) <;> simp [hc]

theorem processPlies_moves_len (engine : Engine) (color : String)
    (plies : List Ply) (ls : LoopState) :
    (processPlies engine color plies ls).moves.length
      = ls.moves.length + countTargetPlies color plies := by
  induction plies generalizing ls with
  | nil => simp [processPlies, countTargetPlies]
  | cons p ps ih =>
    rw [show processPlies engine color (p :: ps) ls
        = processPlies engine color ps (processPly engine color ls p) from rfl, ih,
      processPly_moves_len]
    unfold countTargetPlies
    rw [List.countP_cons]
    by_cases hc : (color = "white" ∧ p.white_to_move = true)
        ∨ (color = "black" ∧ p.white_to_move = false) <;> (simp [hc]; try omega)

theorem analyzeGame_raise_discard (engine : Engine) (g : GameInput)
    (player_name : String) (ast : AnalyzerState) (n : ℕ)
    (hr : g.raise_at = some n)
    (hm : countTargetPlies (determinePlayerColor player_name g.white g.black)
        (g.plies.take n) < 5) :
    (analyzeGame engine g player_name ast).1 = none := by
  simp only [analyzeGame, hr]
  rw [if_pos]
  constructor
  · rfl
  · rw [processPlies_moves_len]
    simpa using hm

theorem analyzeGame_zero_discard (engine : Engine) (g : GameInput)
    (player_name : String) (ast : AnalyzerState)
    (hr : g.raise_at = none)
    (hm : countTargetPlies (determinePlayerColor player_name g.white g.black)
        g.plies = 0) :
    (analyzeGame engine g player_name ast).1 = none := by
  simp only [analyzeGame, hr]
  rw [if_neg (by simp), if_pos]
  rw [processPlies_moves_len]
  simpa using hm

theorem analyzeGame_complete_some (engine : Engine) (g : GameInput)
    (player_name : String) (ast : AnalyzerState)
    (hr : g.raise_at = none)
    (hm : 1 ≤ countTargetPlies (determinePlayerColor player_name g.white g.black)
        g.plies) :
    ∃ a st, analyzeGame engine g player_name ast = (some a, st)
      ∧ a.total_moves = countTargetPlies
          (determinePlayerColor player_name g.white g.black) g.plies := by
  have hlen : (processPlies engine
      (determinePlayerColor player_name g.white g.black) g.plies
      ⟨none, none, 0, [], ast⟩).moves.length
      = countTargetPlies (determinePlayerColor player_name g.white g.black) g.plies := by
    rw [processPlies_moves_len]
    simp
  refine ⟨⟨determinePlayerColor player_name g.white g.black, g.result,
      (processPlies engine (determinePlayerColor player_name g.white g.black) g.plies
        ⟨none, none, 0, [], ast⟩).moves,
      (processPlies engine (determinePlayerColor player_name g.white g.black) g.plies
        ⟨none, none, 0, [], ast⟩).moves.length⟩,
    (processPlies engine (determinePlayerColor player_name g.white g.black) g.plies
        ⟨none, none, 0, [], ast⟩).ast, ?_, by simpa using hlen⟩
  simp only [analyzeGame, hr]
  rw [if_neg (by simp), if_neg (by rw [hlen]; omega)]

/-- C1 (corrected): `analyze_game` discards a game for having fewer than 5
analyzed moves only when an exception interrupted the analysis loop; a game
whose loop completes normally is discarded only when it has zero analyzed
moves, and with at least one analyzed move it is kept — even with fewer
than 5. -/
theorem analyzeGame_discard_policy (engine : Engine) (g : GameInput)
    (player_name : String) (ast : AnalyzerState) :
    (∀ n, g.raise_at = some n →
      countTargetPlies (determinePlayerColor player_name g.white g.black)
          (g.plies.take n) < 5 →
      (analyzeGame engine g player_name ast).1 = none)
    ∧ (g.raise_at = none →
        countTargetPlies (determinePlayerColor player_name g.white g.black) g.plies = 0 →
        (analyzeGame engine g player_name ast).1 = none)
    ∧ (g.raise_at = none →
        1 ≤ countTargetPlies (determinePlayerColor player_name g.white g.black) g.plies →
        ∃ a st, analyzeGame engine g player_name ast = (some a, st)
          ∧ a.total_moves = countTargetPlies
              (determinePlayerColor player_name g.white g.black) g.plies) :=
  ⟨fun n hr hm => analyzeGame_raise_discard engine g player_name ast n hr hm,
   fun hr hm => analyzeGame_zero_discard engine g player_name ast hr hm,
   fun hr hm => analyzeGame_complete_some engine g player_name ast hr hm⟩

/-- C1 counterexample: the one-ply game `wGame` yields exactly one analyzed
move — fewer than 5 — yet `analyze_game` returns a `GameAnalysis` instead of
discarding it. -/
theorem analyzeGame_keeps_short_game_cex :
    (analyzeGame wEngine wGame "alice" ⟨[], []⟩).1.map GameAnalysis.total_moves = some 1
    ∧ (1:ℕ) < 5 := by
  obtain ⟨a, st, heq, htm⟩ := analyzeGame_complete_some wEngine wGame "alice" ⟨[], []⟩
    rfl (by decide)
  have hc : countTargetPlies (determinePlayerColor "alice" wGame.white wGame.black)
      wGame.plies = 1 := by decide
  rw [heq]
  simp [htm, hc]

/-- C1 witness: the amended theorem's kept-game clause applied to `wGame`. -/
theorem analyzeGame_discard_policy_witness :
    (analyzeGame wEngine wGame "alice" ⟨[], []⟩).1.isSome = true := by
  obtain ⟨a, st, heq, htm⟩ :=
    (analyzeGame_discard_policy wEngine wGame "alice" ⟨[], []⟩).2.2 rfl (by decide)
  rw [heq]
  rfl

/-! ## C5: the evaluation cache calls the engine at most once per position -/

theorem analyzePosition_inv (engine : Engine)
    (htot : ∀ fp, (engine fp).isSome = true)
    (st : AnalyzerState) (fp : String) (h : CacheInv st) :
    CacheInv (analyzePosition engine st fp).2 := by
  unfold analyzePosition
  cases hc : st.cache.lookup fp with
  | some v => simpa using h
  | none =>
    cases he : engine fp with
    | none =>
      have := htot fp
      rw [he] at this
      simp at this
    | some r =>
      obtain ⟨info, pv⟩ := r
      simp only
      have hnot : fp ∉ st.calls := by
        intro hin
        have h2 := (h.2 fp).mp hin
        rw [hc] at h2
        simp at h2
      constructor
      · rw [List.nodup_append]
        refine ⟨h.1, List.nodup_singleton fp, ?_⟩
        intro x hx hx2
        simp only [List.mem_singleton] at hx2
        subst hx2
        exact hnot hx
      · intro x
        by_cases hx : x = fp
        · subst hx
          simp [List.lookup]
        · have hbeq : (x == fp) = false := by
            simp [hx]
          simp [List.mem_append, hx, List.lookup, hbeq, h.2 x]

theorem processPly_inv (engine : Engine) (color : String) (ls : LoopState) (ply : Ply)
    (htot : ∀ fp, (engine fp).isSome = true) (h : CacheInv ls.ast) :
    CacheInv (processPly engine color ls ply).ast := by
  unfold processPly
  by_cases hc : (color = "white" ∧ ply.white_to_move = true)
      ∨ (color = "black" ∧ ply.white_to_move = false)
  · simp only [if_pos hc]
    exact analyzePosition_inv engine htot _ _ (analyzePosition_inv engine htot _ _ h)
  · simp only [if_neg hc]
    exact h

theorem processPlies_inv (engine : Engine) (color : String) (plies : List Ply)
    (ls : LoopState)
    (htot : ∀ fp, (engine fp).isSome = true) (h : CacheInv ls.ast) :
    CacheInv (processPlies engine color plies ls).ast := by
  induction plies generalizing ls with
  | nil => exact h
  | cons p ps ih =>
    exact ih (processPly engine color ls p) (processPly_inv engine color ls p htot h)

theorem analyzeGame_inv (engine : Engine) (g : GameInput) (player_name : String)
    (ast : AnalyzerState)
    (htot : ∀ fp, (engine fp).isSome = true) (h : CacheInv ast) :
    CacheInv (analyzeGame engine g player_name ast).2 := by
  unfold analyzeGame
  dsimp only
  split_ifs <;>
    exact processPlies_inv engine _ _ ⟨none, none, 0, [], ast⟩ htot h

theorem analyzeMultipleGames_inv (engine : Engine) (player_name : String)
    (games : List GameInput) (ast : AnalyzerState)
    (htot : ∀ fp, (engine fp).isSome = true) (h : CacheInv ast) :
    CacheInv (analyzeMultipleGames engine player_name games ast).2 := by
  induction games generalizing ast with
  | nil => exact h
  | cons g gs ih =>
    exact ih (analyzeGame engine g player_name ast).2
      (analyzeGame_inv engine g player_name ast htot h)

/-- C5 (confirmed): within one analyzer session starting from an empty cache,
an always-succeeding engine is invoked at most once per distinct position
fingerprint across the whole batch (the call log has no duplicates, also
under transpositions within and across games), and once a fingerprint is
cached, evaluating it again returns the stored `(score, best move)` verbatim
with the state unchanged. -/
theorem evalCache_engine_once (engine : Engine) (player_name : String)
    (games : List GameInput)
    (htot : ∀ fp, (engine fp).isSome = true) :
    ((analyzeMultipleGames engine player_name games ⟨[], []⟩).2.calls).Nodup
    ∧ ∀ (st : AnalyzerState) (fp : String) (v : ℚ × String),
        st.cache.lookup fp = some v →
        analyzePosition engine st fp = (v, st) := by
  constructor
  · refine (analyzeMultipleGames_inv engine player_name games ⟨[], []⟩ htot ?_).1
    exact ⟨List.nodup_nil, by simp⟩
  · intro st fp v hv
    unfold analyzePosition
    rw [hv]

/-- C5 witness: a three-game batch revisiting the same two fingerprints
(transpositions across games) produces a duplicate-free engine-call log. -/
theorem evalCache_engine_once_witness :
    ((analyzeMultipleGames wEngine "alice" c5Games ⟨[], []⟩).2.calls).Nodup :=
  (evalCache_engine_once wEngine "alice" c5Games (fun _ => rfl)).1
